import Mathlib

/-!
Verification development for the `CrossEncoderReranker` component
(`python/lancedb/rerankers/cross_encoder.py`).

The component operates on pyarrow tables.  A table is embedded as an ordered
schema (list of column names) together with a list of rows, each row a list of
cell values positionally aligned with the schema.  Scores (float columns) are
embedded as rationals; only order comparisons on scores matter to the
properties below.

The pipeline methods (`_rerank`, `rerank_hybrid`, `rerank_vector`,
`rerank_fts`) are translated directly from the source.  The external scoring
model (`sentence_transformers.CrossEncoder.predict`) is a parameter, and every
pipeline function additionally returns the list of arguments it passed to
`predict`, so that theorems can speak about how often and with what data the
scoring provider was invoked.  Python exceptions (KeyError on a missing
column, the ArrowInvalid/ValueError raised by `append_column` on a length
mismatch, NotImplementedError, ImportError) are embedded with `Except`.
-/

/-- A cell of a pyarrow table: a string, a number (float embedded as `Rat`),
or a null. -/
inductive Value where
  | str : String → Value
  | num : Rat → Value
  | null : Value
deriving Repr, DecidableEq

/-- A pyarrow table: an ordered schema of column names and a list of rows,
each row positionally aligned with the schema. -/
structure Table where
  schema : List String
  rows : List (List Value)
deriving Repr, DecidableEq

/-- Errors surfaced by the embedded pipeline, mirroring the Python exceptions:
`keyError c` is the KeyError raised when column `c` is absent,
`valueError` is the error `append_column` raises on a length mismatch,
`notImplemented` is the NotImplementedError of the hybrid `all` branch, and
`importError m` is the ImportError of `attempt_import_or_raise m`. -/
inductive RerankError where
  | keyError : String → RerankError
  | valueError : RerankError
  | notImplemented : RerankError
  | importError : String → RerankError
deriving Repr, DecidableEq

/-- Index of column `c` in the schema of `t`, if present. -/
def Table.colIdx (t : Table) (c : String) : Option Nat :=
  t.schema.findIdx? (fun s => s = c)

/-- `result_set[c].to_pylist()`: the values of column `c` in row order;
`none` models the KeyError raised when the column is absent. -/
def Table.getColumn (t : Table) (c : String) : Option (List Value) :=
  (t.colIdx c).map (fun i => t.rows.map (fun r => r.getD i Value.null))

/-- `Table.append_column c vals`: appends a new column on the right.
`none` models the error pyarrow raises when the length of the new column
differs from the table's row count. -/
def Table.appendColumn (t : Table) (c : String) (vals : List Value) : Option Table :=
  if vals.length = t.rows.length then
    some ⟨t.schema ++ [c], List.zipWith (fun r v => r ++ [v]) t.rows vals⟩
  else none

/-- Removes every column whose name is in `cs`, keeping the relative order of
the remaining columns; total (names absent from the schema are ignored). -/
def Table.dropPresent (t : Table) (cs : List String) : Table :=
  ⟨t.schema.filter (fun s => !(cs.contains s)),
   t.rows.map (fun r =>
     ((t.schema.zip r).filter (fun p => !(cs.contains p.1))).map Prod.snd)⟩

/-- `Table.drop_columns cs`: `none` models the KeyError pyarrow raises when
one of the names is absent from the schema. -/
def Table.dropColumns (t : Table) (cs : List String) : Option Table :=
  if cs.all (fun c => t.schema.contains c) then some (t.dropPresent cs) else none

/-- Sort key of row `r` for the score column at index `i`: the numeric cell
value (score columns always hold numbers; other cells map to 0). -/
def colKey (i : Nat) (r : List Value) : Rat :=
  match r.getD i Value.null with
  | Value.num q => q
  | _ => 0

/-- Descending order on rows by the key function: `a` precedes `b` when
`key b ≤ key a`. -/
def DescBy (key : List Value → Rat) (a b : List Value) : Prop := key b ≤ key a

instance (key : List Value → Rat) : DecidableRel (DescBy key) := fun a b =>
  inferInstanceAs (Decidable (key b ≤ key a))

instance (key : List Value → Rat) : IsTotal (List Value) (DescBy key) :=
  ⟨fun a b => le_total (key b) (key a)⟩

instance (key : List Value → Rat) : IsTrans (List Value) (DescBy key) :=
  ⟨fun _ _ _ h1 h2 => le_trans h2 h1⟩

/-- `Table.sort_by [(c, "descending")]`: stable descending sort of the rows by
column `c` (Arrow's `sort_indices` kernel is a stable sort); `none` models the
error raised when the sort column is absent. -/
def Table.sortBy (t : Table) (c : String) : Option Table :=
  (t.colIdx c).map (fun i => ⟨t.schema, List.insertionSort (DescBy (colKey i)) t.rows⟩)

/-- Modelled from the spec: the Merger (`Reranker.merge_results` of the base
class, which is not part of the sources here) combines the two candidate sets
into one whose schema is the union of the input schemas; rows missing a column
from the other side get a null value for that column, and the rows are
concatenated (deduplication is delegated and the simple concatenation strategy
is used). -/
def reindexRow (oldSchema newSchema : List String) (r : List Value) : List Value :=
  newSchema.map (fun c =>
    match oldSchema.findIdx? (fun s => s = c) with
    | some i => r.getD i Value.null
    | none => Value.null)

/-- Modelled from the spec: the Merger's output table (see `reindexRow`). -/
def merge_results (vector_results fts_results : Table) : Table :=
  let schema := vector_results.schema ++
    fts_results.schema.filter (fun s => ¬ vector_results.schema.contains s)
  ⟨schema,
   vector_results.rows.map (reindexRow vector_results.schema schema) ++
   fts_results.rows.map (reindexRow fts_results.schema schema)⟩

/-- Modelled from the spec: `Reranker._keep_relevance_score` of the base class
(not part of the sources here) — on the hybrid path in `relevance` mode both
original score columns (`_distance` and `_score`) are dropped, keeping only
the relevance score. -/
def keep_relevance_score (t : Table) : Table :=
  t.dropPresent ["_distance", "_score"]

/-- The reranker instance after construction: `model_name`, `column` and
`device` are set by `__init__`; `score` is the `return_score` mode stored by
the base-class constructor (modelled from the spec: the base class, not part
of the sources here, stores the mode verbatim). -/
structure CrossEncoderReranker where
  model_name : String
  column : String
  device : String
  score : String
deriving Repr, DecidableEq

/-- The scoring provider: `CrossEncoder.predict` on a batch of
(query, passage) pairs, returning one float per pair. -/
def Provider : Type := List (String × Value) → List Rat

/-- `CrossEncoderReranker._rerank`: reads the configured text column (KeyError
when absent), builds the (query, passage) pairs in row order, calls
`predict` once on the whole batch, and appends the scores as the
`_relevance_score` column.  The second component records every `predict`
invocation (the argument batch of each call). -/
def _rerank (R : CrossEncoderReranker) (predict : Provider)
    (result_set : Table) (query : String) :
    Except RerankError Table × List (List (String × Value)) :=
  match result_set.getColumn R.column with
  | none => (Except.error (RerankError.keyError R.column), [])
  | some passages =>
      let cross_inp := passages.map (fun passage => (query, passage))
      let cross_scores := predict cross_inp
      match result_set.appendColumn "_relevance_score" (cross_scores.map Value.num) with
      | none => (Except.error RerankError.valueError, [cross_inp])
      | some t => (Except.ok t, [cross_inp])

/-- `sort_by([("_relevance_score", "descending")])` as a pipeline stage. -/
def sortStep (t : Table) : Except RerankError Table :=
  match t.sortBy "_relevance_score" with
  | none => Except.error (RerankError.keyError "_relevance_score")
  | some s => Except.ok s

/-- `CrossEncoderReranker.rerank_hybrid`: merge, score, then apply the score
policy (`relevance`: drop both original score columns; `all`: raise
NotImplementedError; anything else: keep everything), then sort. -/
def rerank_hybrid (R : CrossEncoderReranker) (predict : Provider) (query : String)
    (vector_results fts_results : Table) :
    Except RerankError Table × List (List (String × Value)) :=
  let combined_results := merge_results vector_results fts_results
  let res := _rerank R predict combined_results query
  (res.1.bind (fun scored =>
     if R.score = "relevance" then
       sortStep (keep_relevance_score scored)
     else if R.score = "all" then
       Except.error RerankError.notImplemented
     else
       sortStep scored),
   res.2)

/-- The `relevance`-mode column drop of `rerank_vector`:
`drop_columns(["_distance"])`, KeyError when `_distance` is absent. -/
def dropStepVector (R : CrossEncoderReranker) (scored : Table) : Except RerankError Table :=
  if R.score = "relevance" then
    match scored.dropColumns ["_distance"] with
    | none => Except.error (RerankError.keyError "_distance")
    | some t => Except.ok t
  else Except.ok scored

/-- The `relevance`-mode column drop of `rerank_fts`:
`drop_columns(["_score"])`, KeyError when `_score` is absent. -/
def dropStepFts (R : CrossEncoderReranker) (scored : Table) : Except RerankError Table :=
  if R.score = "relevance" then
    match scored.dropColumns ["_score"] with
    | none => Except.error (RerankError.keyError "_score")
    | some t => Except.ok t
  else Except.ok scored

/-- `CrossEncoderReranker.rerank_vector`: score, drop `_distance` in
`relevance` mode, sort descending by `_relevance_score`. -/
def rerank_vector (R : CrossEncoderReranker) (predict : Provider) (query : String)
    (vector_results : Table) :
    Except RerankError Table × List (List (String × Value)) :=
  let res := _rerank R predict vector_results query
  (res.1.bind (fun scored => (dropStepVector R scored).bind sortStep), res.2)

/-- `CrossEncoderReranker.rerank_fts`: score, drop `_score` in `relevance`
mode, sort descending by `_relevance_score`. -/
def rerank_fts (R : CrossEncoderReranker) (predict : Provider) (query : String)
    (fts_results : Table) :
    Except RerankError Table × List (List (String × Value)) :=
  let res := _rerank R predict fts_results query
  (res.1.bind (fun scored => (dropStepFts R scored).bind sortStep), res.2)

/-- The import environment under which a reranker is constructed and used:
whether the optional dependencies `torch` and `sentence_transformers` can be
imported, and whether `torch.cuda.is_available()` reports an accelerator. -/
structure Env where
  torchAvailable : Bool
  cudaAvailable : Bool
  sbertAvailable : Bool
deriving Repr, DecidableEq

/-- `CrossEncoderReranker.__init__`: the base constructor stores
`return_score` as `self.score` (modelled from the spec: the base class is not
part of the sources here and the spec records no further constructor
behaviour), then `attempt_import_or_raise("torch")` fails construction when
`torch` is missing; `device=None` auto-selects `"cuda"` when
`torch.cuda.is_available()` and `"cpu"` otherwise, while a supplied device
string is kept unchanged. -/
def CrossEncoderReranker.init (env : Env) (model_name : String) (column : String)
    (device : Option String) (return_score : String) :
    Except RerankError CrossEncoderReranker :=
  if env.torchAvailable then
    Except.ok
      { model_name := model_name
        column := column
        device :=
          match device with
          | some d => d
          | none => if env.cudaAvailable then "cuda" else "cpu"
        score := return_score }
  else Except.error (RerankError.importError "torch")

/-- A call of `CrossEncoderReranker(...)` itself: an omitted argument (`none`)
takes the default value declared in the source signature
(`model_name="cross-encoder/ms-marco-TinyBERT-L-6"`, `column="text"`,
`device=None`, `return_score="relevance"`). -/
def mkCrossEncoderReranker (env : Env) (model_name : Option String)
    (column : Option String) (device : Option String) (return_score : Option String) :
    Except RerankError CrossEncoderReranker :=
  CrossEncoderReranker.init env
    (model_name.getD "cross-encoder/ms-marco-TinyBERT-L-6")
    (column.getD "text") device (return_score.getD "relevance")

/-- The loaded scoring model handle:
`sentence_transformers.CrossEncoder(model_name, device=device)`. -/
structure CrossEncoderModel where
  name : String
  device : String
deriving Repr, DecidableEq

/-- The `@cached_property model` accessor.  The cache (`none` until the first
access) is passed and returned explicitly: on a hit the cached instance is
returned and the cache is unchanged; on a miss
`attempt_import_or_raise("sentence_transformers")` may fail, otherwise the
model is constructed and stored in the cache. -/
def CrossEncoderReranker.getModel (env : Env) (R : CrossEncoderReranker)
    (cache : Option CrossEncoderModel) :
    Except RerankError (CrossEncoderModel × Option CrossEncoderModel) :=
  match cache with
  | some m => Except.ok (m, some m)
  | none =>
      if env.sbertAvailable then
        Except.ok (⟨R.model_name, R.device⟩, some ⟨R.model_name, R.device⟩)
      else Except.error (RerankError.importError "sentence_transformers")

/-- Whether a column name is one of the three score columns of this
component: the vector retrieval distance, the full-text score, or the
relevance score produced by the reranker. -/
def isScoreCol (s : String) : Bool :=
  s = "_distance" ∨ s = "_score" ∨ s = "_relevance_score"

/-- Index of the `_relevance_score` column of a result table (0 when absent;
only used on tables where the column is present). -/
def relIdx (t : Table) : Nat := (t.colIdx "_relevance_score").getD 0

/-- The rows of `t` are sorted by the `_relevance_score` column in descending
order. -/
def SortedByRelevanceDesc (t : Table) : Prop :=
  List.Sorted (DescBy (colKey (relIdx t))) t.rows

/-- Fixture: a reranker configured with the default `return_score="relevance"`
mode and the default text column. -/
def exampleReranker : CrossEncoderReranker :=
  ⟨"cross-encoder/ms-marco-TinyBERT-L-6", "text", "cpu", "relevance"⟩

/-- Fixture: the same reranker configured with `return_score="all"`. -/
def exampleRerankerAll : CrossEncoderReranker :=
  ⟨"cross-encoder/ms-marco-TinyBERT-L-6", "text", "cpu", "all"⟩

/-- Fixture: a vector candidate set with three rows. -/
def exampleVectorTable : Table :=
  ⟨["text", "_distance"],
   [[Value.str "a", Value.num 1], [Value.str "b", Value.num 3], [Value.str "c", Value.num 3]]⟩

/-- Fixture: a full-text candidate set with one row. -/
def exampleFtsTable : Table :=
  ⟨["text", "_score"], [[Value.str "d", Value.num 5]]⟩

/-- Fixture: a stub scoring provider mapping each passage to a fixed score;
"b" and "c" tie at 3 to exercise sort stability. -/
def exampleProvider : Provider := fun inp =>
  inp.map (fun p =>
    match p.2 with
    | Value.str "a" => 1
    | Value.str "b" => 3
    | Value.str "c" => 3
    | _ => 7)

/-- Fixture: a stub scoring provider that always returns the empty score
list (the wrong length for every non-empty candidate set). -/
def emptyProvider : Provider := fun _ => []

/-- Fixture: a candidate set without the configured text column. -/
def noTextTable : Table := ⟨["body"], [[Value.str "a"]]⟩

/-- Fixture: an empty candidate set whose schema holds only the text
column. -/
def emptyTextOnly : Table := ⟨["text"], []⟩

/-- Fixture: an empty vector candidate set (text and distance columns, no
rows). -/
def emptyVectorTable : Table := ⟨["text", "_distance"], []⟩

/-- Fixture: an empty full-text candidate set (text and score columns, no
rows). -/
def emptyFtsTable : Table := ⟨["text", "_score"], []⟩

/-! ### Helper lemmas -/

theorem colIdx_eq_none_of_not_mem {t : Table} {c : String} (h : c ∉ t.schema) :
    t.colIdx c = none := by
  unfold Table.colIdx
  rw [List.findIdx?_eq_none_iff]
  intro x hx
  by_contra hb
  simp only [Bool.not_eq_false, decide_eq_true_eq] at hb
  exact h (hb ▸ hx)

theorem getColumn_eq_none_of_not_mem {t : Table} {c : String} (h : c ∉ t.schema) :
    t.getColumn c = none := by
  unfold Table.getColumn
  rw [colIdx_eq_none_of_not_mem h]
  rfl

theorem colIdx_isSome_of_mem {t : Table} {c : String} (h : c ∈ t.schema) :
    ∃ i, t.colIdx c = some i := by
  cases hidx : t.colIdx c with
  | some i => exact ⟨i, rfl⟩
  | none =>
      unfold Table.colIdx at hidx
      rw [List.findIdx?_eq_none_iff] at hidx
      have := hidx c h
      simp at this

theorem _rerank_missing {R : CrossEncoderReranker} {predict : Provider}
    {t : Table} {q : String} (h : t.getColumn R.column = none) :
    _rerank R predict t q = (Except.error (RerankError.keyError R.column), []) := by
  unfold _rerank
  rw [h]

theorem _rerank_ok_eq {R : CrossEncoderReranker} {predict : Provider} {t : Table}
    {q : String} {passages : List Value}
    (hcol : t.getColumn R.column = some passages)
    (hlen : (predict (passages.map (fun p => (q, p)))).length = t.rows.length) :
    _rerank R predict t q =
      (Except.ok ⟨t.schema ++ ["_relevance_score"],
          List.zipWith (fun r s => r ++ [Value.num s]) t.rows
            (predict (passages.map (fun p => (q, p))))⟩,
       [passages.map (fun p => (q, p))]) := by
  unfold _rerank
  rw [hcol]
  unfold Table.appendColumn
  simp only [List.length_map, hlen, if_pos, List.zipWith_map_right]

theorem _rerank_mismatch {R : CrossEncoderReranker} {predict : Provider} {t : Table}
    {q : String} {passages : List Value}
    (hcol : t.getColumn R.column = some passages)
    (hlen : (predict (passages.map (fun p => (q, p)))).length ≠ t.rows.length) :
    _rerank R predict t q =
      (Except.error RerankError.valueError, [passages.map (fun p => (q, p))]) := by
  unfold _rerank
  rw [hcol]
  unfold Table.appendColumn
  simp only [List.length_map, if_neg hlen]

theorem getColumn_length {t : Table} {c : String} {passages : List Value}
    (h : t.getColumn c = some passages) : passages.length = t.rows.length := by
  unfold Table.getColumn at h
  obtain ⟨i, _, hf⟩ := Option.map_eq_some'.mp h
  rw [← hf, List.length_map]

theorem insertionSort_filter_key {key : List Value → Rat} (l : List (List Value)) (k : Rat) :
    (List.insertionSort (DescBy key) l).filter (fun r => decide (key r = k)) =
      l.filter (fun r => decide (key r = k)) := by
  set p : List Value → Bool := fun r => decide (key r = k) with hp
  have hpw : (l.filter p).Pairwise (DescBy key) := by
    apply List.pairwise_of_forall_mem_list
    intro a ha b hb
    have ha' := (List.mem_filter.mp ha).2
    have hb' := (List.mem_filter.mp hb).2
    rw [hp] at ha' hb'
    simp only [decide_eq_true_eq] at ha' hb'
    unfold DescBy
    rw [ha', hb']
  have h1 : List.Sublist (l.filter p) (List.insertionSort (DescBy key) l) :=
    List.sublist_insertionSort hpw (List.filter_sublist l)
  have h2 := h1.filter p
  rw [List.filter_filter] at h2
  have h2' : List.Sublist (l.filter p) ((List.insertionSort (DescBy key) l).filter p) := by
    simpa [Bool.and_self] using h2
  have h3 : List.Perm ((List.insertionSort (DescBy key) l).filter p) (l.filter p) :=
    (List.perm_insertionSort (DescBy key) l).filter p
  exact (h2'.eq_of_length h3.length_eq.symm).symm

theorem sortBy_eq_of_colIdx {t : Table} {c : String} {i : Nat}
    (hidx : t.colIdx c = some i) :
    t.sortBy c = some ⟨t.schema, List.insertionSort (DescBy (colKey i)) t.rows⟩ := by
  unfold Table.sortBy
  rw [hidx]
  rfl

theorem sortBy_schema {t t' : Table} {c : String} (h : t.sortBy c = some t') :
    t'.schema = t.schema := by
  unfold Table.sortBy at h
  obtain ⟨i, _, hf⟩ := Option.map_eq_some'.mp h
  rw [← hf]

theorem sortBy_rel_sorted {u t' : Table}
    (h : u.sortBy "_relevance_score" = some t') : SortedByRelevanceDesc t' := by
  unfold Table.sortBy at h
  obtain ⟨i, hidx, hf⟩ := Option.map_eq_some'.mp h
  have hschema : t'.schema = u.schema := by rw [← hf]
  have hrows : t'.rows = List.insertionSort (DescBy (colKey i)) u.rows := by rw [← hf]
  unfold SortedByRelevanceDesc relIdx
  have hci : t'.colIdx "_relevance_score" = some i := by
    unfold Table.colIdx
    rw [hschema]
    exact hidx
  rw [hci, hrows]
  exact List.sorted_insertionSort _ _

theorem sortBy_stable {t t' : Table} {c : String} {i : Nat}
    (hidx : t.colIdx c = some i) (h : t.sortBy c = some t') (k : Rat) :
    t'.rows.filter (fun r => decide (colKey i r = k)) =
      t.rows.filter (fun r => decide (colKey i r = k)) := by
  rw [sortBy_eq_of_colIdx hidx] at h
  have := Option.some.inj h
  rw [← this]
  exact insertionSort_filter_key t.rows k

theorem sortStep_ok_of_mem {u : Table} (h : "_relevance_score" ∈ u.schema) :
    ∃ t', sortStep u = Except.ok t' ∧ t'.schema = u.schema ∧
      u.sortBy "_relevance_score" = some t' := by
  obtain ⟨i, hidx⟩ := colIdx_isSome_of_mem h
  refine ⟨⟨u.schema, List.insertionSort (DescBy (colKey i)) u.rows⟩, ?_, rfl, ?_⟩
  · unfold sortStep
    rw [sortBy_eq_of_colIdx hidx]
  · exact sortBy_eq_of_colIdx hidx

theorem sortStep_ok_inv {u t' : Table} (h : sortStep u = Except.ok t') :
    u.sortBy "_relevance_score" = some t' := by
  unfold sortStep at h
  cases hs : u.sortBy "_relevance_score" with
  | none => rw [hs] at h; exact absurd h (by simp)
  | some s => rw [hs] at h; exact congrArg some (Except.ok.inj h)

theorem except_bind_ok {ε α β : Type} {x : Except ε α} {f : α → Except ε β} {b : β}
    (h : x.bind f = Except.ok b) : ∃ a, x = Except.ok a ∧ f a = Except.ok b := by
  cases x with
  | error e => simp [Except.bind] at h
  | ok a => exact ⟨a, rfl, h⟩

theorem contains_of_mem {l : List String} {a : String} (h : a ∈ l) :
    l.contains a = true := by
  induction l with
  | nil => cases h
  | cons x xs ih =>
      rcases List.mem_cons.mp h with h | h
      · simp [List.contains_cons, h]
      · simp only [List.contains_cons, ih h, Bool.or_true]

theorem not_mem_of_contains_eq_false {l : List String} {a : String}
    (h : l.contains a = false) : a ∉ l := by
  intro hm
  rw [contains_of_mem hm] at h
  cases h

theorem dropStepVector_relevance {R : CrossEncoderReranker} {scored : Table}
    (hmode : R.score = "relevance") (hmem : "_distance" ∈ scored.schema) :
    dropStepVector R scored = Except.ok (scored.dropPresent ["_distance"]) := by
  unfold dropStepVector
  rw [if_pos hmode]
  unfold Table.dropColumns
  rw [if_pos (by simpa using hmem)]

theorem dropStepVector_other {R : CrossEncoderReranker} {scored : Table}
    (hmode : ¬ R.score = "relevance") :
    dropStepVector R scored = Except.ok scored := by
  unfold dropStepVector
  rw [if_neg hmode]

theorem dropStepFts_relevance {R : CrossEncoderReranker} {scored : Table}
    (hmode : R.score = "relevance") (hmem : "_score" ∈ scored.schema) :
    dropStepFts R scored = Except.ok (scored.dropPresent ["_score"]) := by
  unfold dropStepFts
  rw [if_pos hmode]
  unfold Table.dropColumns
  rw [if_pos (by simpa using hmem)]

theorem dropStepFts_other {R : CrossEncoderReranker} {scored : Table}
    (hmode : ¬ R.score = "relevance") :
    dropStepFts R scored = Except.ok scored := by
  unfold dropStepFts
  rw [if_neg hmode]

theorem dropPresent_schema (t : Table) (cs : List String) :
    (t.dropPresent cs).schema = t.schema.filter (fun s => !(cs.contains s)) := rfl

theorem mem_dropPresent_schema {t : Table} {cs : List String} {a : String}
    (hmem : a ∈ t.schema) (hnc : cs.contains a = false) :
    a ∈ (t.dropPresent cs).schema := by
  rw [dropPresent_schema]
  exact List.mem_filter.mpr ⟨hmem, by rw [hnc]; rfl⟩

theorem not_mem_merge_schema {tv tf : Table} {c : String}
    (hv : c ∉ tv.schema) (hf : c ∉ tf.schema) :
    c ∉ (merge_results tv tf).schema := by
  unfold merge_results
  dsimp only
  intro hmem
  rcases List.mem_append.mp hmem with h | h
  · exact hv h
  · exact hf (List.mem_filter.mp h).1

theorem rerank_vector_ok_inv {R : CrossEncoderReranker} {predict : Provider}
    {q : String} {t t1 : Table}
    (h : (rerank_vector R predict q t).1 = Except.ok t1) :
    ∃ u : Table, u.sortBy "_relevance_score" = some t1 := by
  unfold rerank_vector at h
  dsimp only at h
  obtain ⟨scored, _, h2⟩ := except_bind_ok h
  obtain ⟨u, _, h3⟩ := except_bind_ok h2
  exact ⟨u, sortStep_ok_inv h3⟩

theorem rerank_fts_ok_inv {R : CrossEncoderReranker} {predict : Provider}
    {q : String} {t t2 : Table}
    (h : (rerank_fts R predict q t).1 = Except.ok t2) :
    ∃ u : Table, u.sortBy "_relevance_score" = some t2 := by
  unfold rerank_fts at h
  dsimp only at h
  obtain ⟨scored, _, h2⟩ := except_bind_ok h
  obtain ⟨u, _, h3⟩ := except_bind_ok h2
  exact ⟨u, sortStep_ok_inv h3⟩

theorem rerank_hybrid_ok_inv {R : CrossEncoderReranker} {predict : Provider}
    {q : String} {hv hf t3 : Table}
    (h : (rerank_hybrid R predict q hv hf).1 = Except.ok t3) :
    ∃ u : Table, u.sortBy "_relevance_score" = some t3 := by
  unfold rerank_hybrid at h
  dsimp only at h
  obtain ⟨scored, _, h2⟩ := except_bind_ok h
  by_cases hrel : R.score = "relevance"
  · rw [if_pos hrel] at h2
    exact ⟨_, sortStep_ok_inv h2⟩
  · rw [if_neg hrel] at h2
    by_cases hall : R.score = "all"
    · rw [if_pos hall] at h2
      exact absurd h2 (by simp)
    · rw [if_neg hall] at h2
      exact ⟨_, sortStep_ok_inv h2⟩

theorem score_filter_after_drop (l cs : List String)
    (hall : ∀ s ∈ l, isScoreCol s = true → cs.contains s = true)
    (hrel : cs.contains "_relevance_score" = false) :
    ((l ++ ["_relevance_score"]).filter (fun s => !(cs.contains s))).filter isScoreCol
      = ["_relevance_score"] := by
  rw [List.filter_append, List.filter_append]
  have h1 : (l.filter (fun s => !(cs.contains s))).filter isScoreCol = [] := by
    rw [List.filter_filter, List.filter_eq_nil_iff]
    intro a ha hcontra
    rw [Bool.and_eq_true] at hcontra
    obtain ⟨hsc, hnc⟩ := hcontra
    rw [hall a ha hsc] at hnc
    cases hnc
  have h2 : (["_relevance_score"].filter (fun s => !(cs.contains s))).filter isScoreCol
      = ["_relevance_score"] := by
    have hs : (["_relevance_score"] : List String).filter (fun s => !(cs.contains s))
        = ["_relevance_score"] := by
      have hnm : "_relevance_score" ∉ cs := not_mem_of_contains_eq_false hrel
      simp [List.filter, hnm]
    rw [hs]
    rfl
  rw [h1, h2]
  rfl

theorem not_mem_dropPresent {t : Table} {cs : List String} {a : String}
    (h : cs.contains a = true) : a ∉ (t.dropPresent cs).schema := by
  rw [dropPresent_schema]
  intro hm
  have hc := (List.mem_filter.mp hm).2
  rw [h] at hc
  cases hc

theorem sortStep_nil_rows {w t' : Table} (h : w.sortBy "_relevance_score" = some t')
    (hw : w.rows = []) : t'.rows = [] := by
  unfold Table.sortBy at h
  obtain ⟨i, hi, hf⟩ := Option.map_eq_some'.mp h
  rw [← hf]
  dsimp only
  rw [hw]
  rfl

/-! ### Claim theorems -/

/-- C4: for every candidate set in which the configured text column is
absent, each of the three rerank operations fails with the missing-column
(KeyError) error, the scoring provider is never invoked (the invocation log
is empty), and no result set is produced. -/
theorem missing_text_column_fails_before_provider
    (R : CrossEncoderReranker) (predict : Provider) (q : String) (t tv tf : Table)
    (ht : R.column ∉ t.schema) (hv : R.column ∉ tv.schema) (hf : R.column ∉ tf.schema) :
    rerank_vector R predict q t = (Except.error (RerankError.keyError R.column), []) ∧
    rerank_fts R predict q t = (Except.error (RerankError.keyError R.column), []) ∧
    rerank_hybrid R predict q tv tf = (Except.error (RerankError.keyError R.column), []) := by
  refine ⟨?_, ?_, ?_⟩
  · unfold rerank_vector
    rw [_rerank_missing (getColumn_eq_none_of_not_mem ht)]
    rfl
  · unfold rerank_fts
    rw [_rerank_missing (getColumn_eq_none_of_not_mem ht)]
    rfl
  · unfold rerank_hybrid
    dsimp only
    rw [_rerank_missing (getColumn_eq_none_of_not_mem (not_mem_merge_schema hv hf))]
    rfl

/-- C4 witness at concrete inputs. -/
theorem missing_text_column_fails_before_provider_witness :
    rerank_vector exampleReranker exampleProvider "q" noTextTable
      = (Except.error (RerankError.keyError "text"), []) ∧
    rerank_fts exampleReranker exampleProvider "q" noTextTable
      = (Except.error (RerankError.keyError "text"), []) ∧
    rerank_hybrid exampleReranker exampleProvider "q" noTextTable noTextTable
      = (Except.error (RerankError.keyError "text"), []) :=
  missing_text_column_fails_before_provider exampleReranker exampleProvider "q"
    noTextTable noTextTable noTextTable (by decide) (by decide) (by decide)

/-- C5: when the scoring provider returns a score list whose length differs
from the candidate set's row count, each rerank call fails with the
length-mismatch error after exactly one provider invocation (no retry), and
no partial result set is returned. -/
theorem provider_length_mismatch_fatal
    (R : CrossEncoderReranker) (predict : Provider) (q : String) (t u hv hf : Table)
    (pt pu pm : List Value)
    (hct : t.getColumn R.column = some pt)
    (hlt : (predict (pt.map (fun p => (q, p)))).length ≠ t.rows.length)
    (hcu : u.getColumn R.column = some pu)
    (hlu : (predict (pu.map (fun p => (q, p)))).length ≠ u.rows.length)
    (hcm : (merge_results hv hf).getColumn R.column = some pm)
    (hlm : (predict (pm.map (fun p => (q, p)))).length ≠ (merge_results hv hf).rows.length) :
    rerank_vector R predict q t
      = (Except.error RerankError.valueError, [pt.map (fun p => (q, p))]) ∧
    rerank_fts R predict q u
      = (Except.error RerankError.valueError, [pu.map (fun p => (q, p))]) ∧
    rerank_hybrid R predict q hv hf
      = (Except.error RerankError.valueError, [pm.map (fun p => (q, p))]) := by
  refine ⟨?_, ?_, ?_⟩
  · unfold rerank_vector
    rw [_rerank_mismatch hct hlt]
    rfl
  · unfold rerank_fts
    rw [_rerank_mismatch hcu hlu]
    rfl
  · unfold rerank_hybrid
    dsimp only
    rw [_rerank_mismatch hcm hlm]
    rfl

/-- C5 witness at concrete inputs: a stub provider that always returns an
empty score list. -/
theorem provider_length_mismatch_fatal_witness :
    rerank_vector exampleReranker emptyProvider "q" exampleVectorTable
      = (Except.error RerankError.valueError,
         [[("q", Value.str "a"), ("q", Value.str "b"), ("q", Value.str "c")]]) ∧
    rerank_fts exampleReranker emptyProvider "q" exampleFtsTable
      = (Except.error RerankError.valueError, [[("q", Value.str "d")]]) ∧
    rerank_hybrid exampleReranker emptyProvider "q" exampleVectorTable exampleFtsTable
      = (Except.error RerankError.valueError,
         [[("q", Value.str "a"), ("q", Value.str "b"), ("q", Value.str "c"),
           ("q", Value.str "d")]]) :=
  provider_length_mismatch_fatal exampleReranker emptyProvider "q"
    exampleVectorTable exampleFtsTable exampleVectorTable exampleFtsTable
    [Value.str "a", Value.str "b", Value.str "c"] [Value.str "d"]
    [Value.str "a", Value.str "b", Value.str "c", Value.str "d"]
    (by rfl) (by decide) (by rfl) (by decide) (by rfl) (by decide)

/-- C6: the scoring step builds the (query, passage) pairs in the candidate
set's row order, invokes the provider exactly once with the whole batch, and
appends the returned scores as the new `_relevance_score` column in the same
row order, leaving the pre-existing schema, rows and values unchanged. -/
theorem scoring_step_single_batched_call
    (R : CrossEncoderReranker) (predict : Provider) (t : Table) (q : String)
    (passages : List Value)
    (hcol : t.getColumn R.column = some passages)
    (hlen : (predict (passages.map (fun p => (q, p)))).length = t.rows.length) :
    _rerank R predict t q =
      (Except.ok ⟨t.schema ++ ["_relevance_score"],
          List.zipWith (fun r s => r ++ [Value.num s]) t.rows
            (predict (passages.map (fun p => (q, p))))⟩,
       [passages.map (fun p => (q, p))]) :=
  _rerank_ok_eq hcol hlen

/-- C6 witness at concrete inputs. -/
theorem scoring_step_single_batched_call_witness :
    _rerank exampleReranker exampleProvider exampleVectorTable "q" =
      (Except.ok ⟨["text", "_distance", "_relevance_score"],
          List.zipWith (fun r s => r ++ [Value.num s]) exampleVectorTable.rows
            (exampleProvider ([Value.str "a", Value.str "b", Value.str "c"].map
              (fun p => ("q", p))))⟩,
       [[Value.str "a", Value.str "b", Value.str "c"].map (fun p => ("q", p))]) :=
  scoring_step_single_batched_call exampleReranker exampleProvider exampleVectorTable "q"
    [Value.str "a", Value.str "b", Value.str "c"] (by rfl) (by rfl)

/-- C8: with `device` unset the constructor auto-selects `"cuda"` when the
accelerator probe reports hardware and `"cpu"` otherwise; a supplied device
string is used unchanged; and an entirely default call uses `column="text"`
and `return_score="relevance"`. -/
theorem constructor_device_selection_and_defaults
    (env : Env) (htorch : env.torchAvailable = true) (mn col rs d : String) :
    (CrossEncoderReranker.init env mn col none rs =
      Except.ok ⟨mn, col, (if env.cudaAvailable then "cuda" else "cpu"), rs⟩) ∧
    (CrossEncoderReranker.init env mn col (some d) rs = Except.ok ⟨mn, col, d, rs⟩) ∧
    (mkCrossEncoderReranker env none none none none =
      Except.ok ⟨"cross-encoder/ms-marco-TinyBERT-L-6", "text",
        (if env.cudaAvailable then "cuda" else "cpu"), "relevance"⟩) := by
  refine ⟨?_, ?_, ?_⟩ <;>
    simp [CrossEncoderReranker.init, mkCrossEncoderReranker, htorch]

/-- C8 witness at a concrete environment without accelerator hardware. -/
theorem constructor_device_selection_and_defaults_witness :
    (CrossEncoderReranker.init ⟨true, false, true⟩ "m" "body" none "all" =
      Except.ok ⟨"m", "body", (if (false : Bool) then "cuda" else "cpu"), "all"⟩) ∧
    (CrossEncoderReranker.init ⟨true, false, true⟩ "m" "body" (some "cuda:1") "all" =
      Except.ok ⟨"m", "body", "cuda:1", "all"⟩) ∧
    (mkCrossEncoderReranker ⟨true, false, true⟩ none none none none =
      Except.ok ⟨"cross-encoder/ms-marco-TinyBERT-L-6", "text",
        (if (false : Bool) then "cuda" else "cpu"), "relevance"⟩) :=
  constructor_device_selection_and_defaults ⟨true, false, true⟩ (by rfl) "m" "body" "all" "cuda:1"

/-- C7 counterexample: the `torch` optional dependency is imported by the
constructor itself, so with `torch` missing the import failure surfaces at
construction time — not at the first access to the scoring model as the
claim states. -/
theorem torch_missing_fails_at_construction_cex :
    CrossEncoderReranker.init ⟨false, false, true⟩
      "cross-encoder/ms-marco-TinyBERT-L-6" "text" none "relevance"
      = Except.error (RerankError.importError "torch") := rfl

/-- C7 (amended): construction never touches `sentence_transformers` (it
succeeds whether or not that dependency is importable, provided `torch` is),
a missing `sentence_transformers` surfaces at the first model access, the
first access constructs the model and caches it, and every later access
returns the cached instance unchanged. -/
theorem lazy_model_first_access_and_reuse
    (env : Env) (R : CrossEncoderReranker) (htorch : env.torchAvailable = true) :
    (CrossEncoderReranker.init env R.model_name R.column (some R.device) R.score
       = Except.ok ⟨R.model_name, R.column, R.device, R.score⟩) ∧
    (env.sbertAvailable = false →
       CrossEncoderReranker.getModel env R none
         = Except.error (RerankError.importError "sentence_transformers")) ∧
    (env.sbertAvailable = true →
       CrossEncoderReranker.getModel env R none
         = Except.ok (⟨R.model_name, R.device⟩, some ⟨R.model_name, R.device⟩)) ∧
    (∀ m : CrossEncoderModel,
       CrossEncoderReranker.getModel env R (some m) = Except.ok (m, some m)) := by
  refine ⟨?_, ?_, ?_, fun m => rfl⟩
  · simp [CrossEncoderReranker.init, htorch]
  · intro h
    simp [CrossEncoderReranker.getModel, h]
  · intro h
    simp [CrossEncoderReranker.getModel, h]

/-- C7 witness at a concrete environment where `sentence_transformers` is
missing but `torch` is present. -/
theorem lazy_model_first_access_and_reuse_witness :
    (CrossEncoderReranker.init ⟨true, false, false⟩
       exampleReranker.model_name exampleReranker.column
       (some exampleReranker.device) exampleReranker.score
       = Except.ok ⟨exampleReranker.model_name, exampleReranker.column,
           exampleReranker.device, exampleReranker.score⟩) ∧
    ((⟨true, false, false⟩ : Env).sbertAvailable = false →
       CrossEncoderReranker.getModel ⟨true, false, false⟩ exampleReranker none
         = Except.error (RerankError.importError "sentence_transformers")) ∧
    ((⟨true, false, false⟩ : Env).sbertAvailable = true →
       CrossEncoderReranker.getModel ⟨true, false, false⟩ exampleReranker none
         = Except.ok (⟨exampleReranker.model_name, exampleReranker.device⟩,
             some ⟨exampleReranker.model_name, exampleReranker.device⟩)) ∧
    (∀ m : CrossEncoderModel,
       CrossEncoderReranker.getModel ⟨true, false, false⟩ exampleReranker (some m)
         = Except.ok (m, some m)) :=
  lazy_model_first_access_and_reuse ⟨true, false, false⟩ exampleReranker (by rfl)

/-- C1 counterexample: on the hybrid path with `return_score="all"` the call
does fail with NotImplementedError, but the scoring provider has already been
invoked once (the invocation log holds the full batch of pairs), contradicting
the claim that the failure is raised before any scoring work. -/
theorem hybrid_all_never_invokes_provider_cex :
    rerank_hybrid exampleRerankerAll exampleProvider "q" exampleVectorTable exampleFtsTable
      = (Except.error RerankError.notImplemented,
         [[("q", Value.str "a"), ("q", Value.str "b"), ("q", Value.str "c"),
           ("q", Value.str "d")]]) := rfl

/-- C1 (amended): `rerank_hybrid` with `return_score="all"` always fails with
NotImplementedError, but only after merging and scoring: the provider is
invoked exactly once, on the full batch of merged pairs, before the failure
is raised. -/
theorem hybrid_all_mode_raises_after_one_scoring_call
    (R : CrossEncoderReranker) (predict : Provider) (q : String) (hv hf : Table)
    (pm : List Value)
    (hmode : R.score = "all")
    (hcm : (merge_results hv hf).getColumn R.column = some pm)
    (hlm : (predict (pm.map (fun p => (q, p)))).length = (merge_results hv hf).rows.length) :
    rerank_hybrid R predict q hv hf
      = (Except.error RerankError.notImplemented, [pm.map (fun p => (q, p))]) := by
  unfold rerank_hybrid
  dsimp only
  rw [_rerank_ok_eq hcm hlm]
  dsimp only [Except.bind]
  rw [if_neg (by rw [hmode]; decide), if_pos hmode]

/-- C1 witness at concrete inputs. -/
theorem hybrid_all_mode_raises_after_one_scoring_call_witness :
    rerank_hybrid exampleRerankerAll exampleProvider "q" exampleVectorTable exampleFtsTable
      = (Except.error RerankError.notImplemented,
         [[Value.str "a", Value.str "b", Value.str "c", Value.str "d"].map
            (fun p => ("q", p))]) :=
  hybrid_all_mode_raises_after_one_scoring_call exampleRerankerAll exampleProvider "q"
    exampleVectorTable exampleFtsTable
    [Value.str "a", Value.str "b", Value.str "c", Value.str "d"]
    (by rfl) (by rfl) (by rfl)

/-- C2: every result set returned by the three rerank operations is sorted by
the `_relevance_score` column in descending order, and the sort used is
stable: for every sort key value, the rows carrying that key appear in the
output in exactly their input order. -/
theorem rerank_results_sorted_descending_stable
    (R : CrossEncoderReranker) (predict : Provider) (q : String)
    (t u hv hf t1 t2 t3 : Table)
    (h1 : (rerank_vector R predict q t).1 = Except.ok t1)
    (h2 : (rerank_fts R predict q u).1 = Except.ok t2)
    (h3 : (rerank_hybrid R predict q hv hf).1 = Except.ok t3) :
    SortedByRelevanceDesc t1 ∧ SortedByRelevanceDesc t2 ∧ SortedByRelevanceDesc t3 ∧
    (∀ (w w' : Table) (c : String) (i : Nat),
       w.colIdx c = some i → w.sortBy c = some w' →
       ∀ k : Rat,
         w'.rows.filter (fun r => decide (colKey i r = k)) =
           w.rows.filter (fun r => decide (colKey i r = k))) := by
  obtain ⟨u1, hs1⟩ := rerank_vector_ok_inv h1
  obtain ⟨u2, hs2⟩ := rerank_fts_ok_inv h2
  obtain ⟨u3, hs3⟩ := rerank_hybrid_ok_inv h3
  exact ⟨sortBy_rel_sorted hs1, sortBy_rel_sorted hs2, sortBy_rel_sorted hs3,
    fun w w' c i hi hs k => sortBy_stable hi hs k⟩

/-- C2 witness at concrete inputs, with a tie group ("b" and "c" both score 3)
exercising stability. -/
theorem rerank_results_sorted_descending_stable_witness :
    SortedByRelevanceDesc ⟨["text", "_relevance_score"],
      [[Value.str "b", Value.num 3], [Value.str "c", Value.num 3],
       [Value.str "a", Value.num 1]]⟩ ∧
    SortedByRelevanceDesc ⟨["text", "_relevance_score"],
      [[Value.str "d", Value.num 7]]⟩ ∧
    SortedByRelevanceDesc ⟨["text", "_relevance_score"],
      [[Value.str "d", Value.num 7], [Value.str "b", Value.num 3],
       [Value.str "c", Value.num 3], [Value.str "a", Value.num 1]]⟩ ∧
    (∀ (w w' : Table) (c : String) (i : Nat),
       w.colIdx c = some i → w.sortBy c = some w' →
       ∀ k : Rat,
         w'.rows.filter (fun r => decide (colKey i r = k)) =
           w.rows.filter (fun r => decide (colKey i r = k))) :=
  rerank_results_sorted_descending_stable exampleReranker exampleProvider "q"
    exampleVectorTable exampleFtsTable exampleVectorTable exampleFtsTable
    ⟨["text", "_relevance_score"],
      [[Value.str "b", Value.num 3], [Value.str "c", Value.num 3],
       [Value.str "a", Value.num 1]]⟩
    ⟨["text", "_relevance_score"], [[Value.str "d", Value.num 7]]⟩
    ⟨["text", "_relevance_score"],
      [[Value.str "d", Value.num 7], [Value.str "b", Value.num 3],
       [Value.str "c", Value.num 3], [Value.str "a", Value.num 1]]⟩
    (by rfl) (by rfl) (by rfl)

theorem not_mem_filter_contains {l cs : List String} {a : String}
    (h : cs.contains a = true) : a ∉ l.filter (fun s => !(cs.contains s)) := by
  intro hm
  have hc := (List.mem_filter.mp hm).2
  rw [h] at hc
  cases hc

theorem rerank_vector_relevance_eval {R : CrossEncoderReranker} {predict : Provider}
    {q : String} {t : Table} {pt : List Value}
    (hmode : R.score = "relevance")
    (hct : t.getColumn R.column = some pt)
    (hlt : (predict (pt.map (fun p => (q, p)))).length = t.rows.length)
    (hdt : "_distance" ∈ t.schema) :
    ∃ t1 : Table,
      rerank_vector R predict q t = (Except.ok t1, [pt.map (fun p => (q, p))]) ∧
      t1.schema = (t.schema ++ ["_relevance_score"]).filter
        (fun s => !((["_distance"] : List String).contains s)) ∧
      (t.rows = [] → t1.rows = []) := by
  have hmemr : "_relevance_score" ∈
      ((⟨t.schema ++ ["_relevance_score"],
          List.zipWith (fun r s => r ++ [Value.num s]) t.rows
            (predict (pt.map (fun p => (q, p))))⟩ : Table).dropPresent
        ["_distance"]).schema :=
    mem_dropPresent_schema (List.mem_append.mpr (Or.inr (List.mem_singleton.mpr rfl)))
      (by decide)
  obtain ⟨t1, hsort, hschema, hsby⟩ := sortStep_ok_of_mem hmemr
  refine ⟨t1, ?_, ?_, ?_⟩
  · unfold rerank_vector
    rw [_rerank_ok_eq hct hlt]
    dsimp only [Except.bind]
    rw [dropStepVector_relevance hmode
      (show "_distance" ∈ (t.schema ++ ["_relevance_score"]) from
        List.mem_append.mpr (Or.inl hdt))]
    dsimp only [Except.bind]
    rw [hsort]
  · rw [hschema, dropPresent_schema]
  · intro hr
    apply sortStep_nil_rows hsby
    unfold Table.dropPresent
    dsimp only
    rw [hr]
    rfl

theorem rerank_fts_relevance_eval {R : CrossEncoderReranker} {predict : Provider}
    {q : String} {u : Table} {pu : List Value}
    (hmode : R.score = "relevance")
    (hcu : u.getColumn R.column = some pu)
    (hlu : (predict (pu.map (fun p => (q, p)))).length = u.rows.length)
    (hsu : "_score" ∈ u.schema) :
    ∃ t2 : Table,
      rerank_fts R predict q u = (Except.ok t2, [pu.map (fun p => (q, p))]) ∧
      t2.schema = (u.schema ++ ["_relevance_score"]).filter
        (fun s => !((["_score"] : List String).contains s)) ∧
      (u.rows = [] → t2.rows = []) := by
  have hmemr : "_relevance_score" ∈
      ((⟨u.schema ++ ["_relevance_score"],
          List.zipWith (fun r s => r ++ [Value.num s]) u.rows
            (predict (pu.map (fun p => (q, p))))⟩ : Table).dropPresent
        ["_score"]).schema :=
    mem_dropPresent_schema (List.mem_append.mpr (Or.inr (List.mem_singleton.mpr rfl)))
      (by decide)
  obtain ⟨t2, hsort, hschema, hsby⟩ := sortStep_ok_of_mem hmemr
  refine ⟨t2, ?_, ?_, ?_⟩
  · unfold rerank_fts
    rw [_rerank_ok_eq hcu hlu]
    dsimp only [Except.bind]
    rw [dropStepFts_relevance hmode
      (show "_score" ∈ (u.schema ++ ["_relevance_score"]) from
        List.mem_append.mpr (Or.inl hsu))]
    dsimp only [Except.bind]
    rw [hsort]
  · rw [hschema, dropPresent_schema]
  · intro hr
    apply sortStep_nil_rows hsby
    unfold Table.dropPresent
    dsimp only
    rw [hr]
    rfl

theorem rerank_hybrid_relevance_eval {R : CrossEncoderReranker} {predict : Provider}
    {q : String} {hv hf : Table} {pm : List Value}
    (hmode : R.score = "relevance")
    (hcm : (merge_results hv hf).getColumn R.column = some pm)
    (hlm : (predict (pm.map (fun p => (q, p)))).length = (merge_results hv hf).rows.length) :
    ∃ t3 : Table,
      rerank_hybrid R predict q hv hf = (Except.ok t3, [pm.map (fun p => (q, p))]) ∧
      t3.schema = ((merge_results hv hf).schema ++ ["_relevance_score"]).filter
        (fun s => !((["_distance", "_score"] : List String).contains s)) := by
  have hmemr : "_relevance_score" ∈
      (keep_relevance_score
        ⟨(merge_results hv hf).schema ++ ["_relevance_score"],
          List.zipWith (fun r s => r ++ [Value.num s]) (merge_results hv hf).rows
            (predict (pm.map (fun p => (q, p))))⟩).schema := by
    unfold keep_relevance_score
    exact mem_dropPresent_schema
      (List.mem_append.mpr (Or.inr (List.mem_singleton.mpr rfl))) (by decide)
  obtain ⟨t3, hsort, hschema, hsby⟩ := sortStep_ok_of_mem hmemr
  refine ⟨t3, ?_, ?_⟩
  · unfold rerank_hybrid
    dsimp only
    rw [_rerank_ok_eq hcm hlm]
    dsimp only [Except.bind]
    rw [if_pos hmode, hsort]
  · rw [hschema]
    unfold keep_relevance_score
    rw [dropPresent_schema]

theorem rerank_vector_other_eval {R : CrossEncoderReranker} {predict : Provider}
    {q : String} {t : Table} {pt : List Value}
    (hmode : ¬ R.score = "relevance")
    (hct : t.getColumn R.column = some pt)
    (hlt : (predict (pt.map (fun p => (q, p)))).length = t.rows.length) :
    ∃ t1 : Table,
      rerank_vector R predict q t = (Except.ok t1, [pt.map (fun p => (q, p))]) ∧
      t1.schema = t.schema ++ ["_relevance_score"] ∧
      (t.rows = [] → t1.rows = []) := by
  have hmemr : "_relevance_score" ∈
      ((⟨t.schema ++ ["_relevance_score"],
          List.zipWith (fun r s => r ++ [Value.num s]) t.rows
            (predict (pt.map (fun p => (q, p))))⟩ : Table)).schema :=
    List.mem_append.mpr (Or.inr (List.mem_singleton.mpr rfl))
  obtain ⟨t1, hsort, hschema, hsby⟩ := sortStep_ok_of_mem hmemr
  refine ⟨t1, ?_, ?_, ?_⟩
  · unfold rerank_vector
    rw [_rerank_ok_eq hct hlt]
    dsimp only [Except.bind]
    rw [dropStepVector_other hmode]
    dsimp only [Except.bind]
    rw [hsort]
  · rw [hschema]
  · intro hr
    apply sortStep_nil_rows hsby
    dsimp only
    rw [hr]
    rfl

theorem rerank_fts_other_eval {R : CrossEncoderReranker} {predict : Provider}
    {q : String} {u : Table} {pu : List Value}
    (hmode : ¬ R.score = "relevance")
    (hcu : u.getColumn R.column = some pu)
    (hlu : (predict (pu.map (fun p => (q, p)))).length = u.rows.length) :
    ∃ t2 : Table,
      rerank_fts R predict q u = (Except.ok t2, [pu.map (fun p => (q, p))]) ∧
      t2.schema = u.schema ++ ["_relevance_score"] ∧
      (u.rows = [] → t2.rows = []) := by
  have hmemr : "_relevance_score" ∈
      ((⟨u.schema ++ ["_relevance_score"],
          List.zipWith (fun r s => r ++ [Value.num s]) u.rows
            (predict (pu.map (fun p => (q, p))))⟩ : Table)).schema :=
    List.mem_append.mpr (Or.inr (List.mem_singleton.mpr rfl))
  obtain ⟨t2, hsort, hschema, hsby⟩ := sortStep_ok_of_mem hmemr
  refine ⟨t2, ?_, ?_, ?_⟩
  · unfold rerank_fts
    rw [_rerank_ok_eq hcu hlu]
    dsimp only [Except.bind]
    rw [dropStepFts_other hmode]
    dsimp only [Except.bind]
    rw [hsort]
  · rw [hschema]
  · intro hr
    apply sortStep_nil_rows hsby
    dsimp only
    rw [hr]
    rfl

theorem rerank_hybrid_other_eval {R : CrossEncoderReranker} {predict : Provider}
    {q : String} {hv hf : Table} {pm : List Value}
    (hmode : ¬ R.score = "relevance") (hall : ¬ R.score = "all")
    (hcm : (merge_results hv hf).getColumn R.column = some pm)
    (hlm : (predict (pm.map (fun p => (q, p)))).length = (merge_results hv hf).rows.length) :
    ∃ t3 : Table,
      rerank_hybrid R predict q hv hf = (Except.ok t3, [pm.map (fun p => (q, p))]) ∧
      t3.schema = (merge_results hv hf).schema ++ ["_relevance_score"] := by
  have hmemr : "_relevance_score" ∈
      ((⟨(merge_results hv hf).schema ++ ["_relevance_score"],
          List.zipWith (fun r s => r ++ [Value.num s]) (merge_results hv hf).rows
            (predict (pm.map (fun p => (q, p))))⟩ : Table)).schema :=
    List.mem_append.mpr (Or.inr (List.mem_singleton.mpr rfl))
  obtain ⟨t3, hsort, hschema, hsby⟩ := sortStep_ok_of_mem hmemr
  refine ⟨t3, ?_, ?_⟩
  · unfold rerank_hybrid
    dsimp only
    rw [_rerank_ok_eq hcm hlm]
    dsimp only [Except.bind]
    rw [if_neg hmode, if_neg hall, hsort]
  · rw [hschema]

/-- C3: in `relevance` mode the per-path column-dropping table holds —
`rerank_vector` drops `_distance`, `rerank_fts` drops `_score`,
`rerank_hybrid` drops both — and in each case exactly one score column
(`_relevance_score`) remains in the returned result set. -/
theorem relevance_mode_exactly_one_score_column
    (R : CrossEncoderReranker) (predict : Provider) (q : String)
    (t u hv hf : Table) (pt pu pm : List Value)
    (hmode : R.score = "relevance")
    (hct : t.getColumn R.column = some pt)
    (hlt : (predict (pt.map (fun p => (q, p)))).length = t.rows.length)
    (hdt : "_distance" ∈ t.schema) (hst : "_score" ∉ t.schema)
    (hrt : "_relevance_score" ∉ t.schema)
    (hcu : u.getColumn R.column = some pu)
    (hlu : (predict (pu.map (fun p => (q, p)))).length = u.rows.length)
    (hsu : "_score" ∈ u.schema) (hdu : "_distance" ∉ u.schema)
    (hru : "_relevance_score" ∉ u.schema)
    (hcm : (merge_results hv hf).getColumn R.column = some pm)
    (hlm : (predict (pm.map (fun p => (q, p)))).length = (merge_results hv hf).rows.length)
    (hrm : "_relevance_score" ∉ (merge_results hv hf).schema) :
    (∃ t1 : Table, (rerank_vector R predict q t).1 = Except.ok t1 ∧
       "_distance" ∉ t1.schema ∧
       t1.schema.filter isScoreCol = ["_relevance_score"]) ∧
    (∃ t2 : Table, (rerank_fts R predict q u).1 = Except.ok t2 ∧
       "_score" ∉ t2.schema ∧
       t2.schema.filter isScoreCol = ["_relevance_score"]) ∧
    (∃ t3 : Table, (rerank_hybrid R predict q hv hf).1 = Except.ok t3 ∧
       "_distance" ∉ t3.schema ∧ "_score" ∉ t3.schema ∧
       t3.schema.filter isScoreCol = ["_relevance_score"]) := by
  refine ⟨?_, ?_, ?_⟩
  · obtain ⟨t1, heq, hschema, _⟩ := rerank_vector_relevance_eval hmode hct hlt hdt
    refine ⟨t1, by rw [heq], ?_, ?_⟩
    · rw [hschema]
      exact not_mem_filter_contains (by decide)
    · rw [hschema]
      apply score_filter_after_drop
      · intro s hs hsc
        unfold isScoreCol at hsc
        rcases of_decide_eq_true hsc with h | h | h
        · rw [h]; decide
        · exact absurd (h ▸ hs) hst
        · exact absurd (h ▸ hs) hrt
      · decide
  · obtain ⟨t2, heq, hschema, _⟩ := rerank_fts_relevance_eval hmode hcu hlu hsu
    refine ⟨t2, by rw [heq], ?_, ?_⟩
    · rw [hschema]
      exact not_mem_filter_contains (by decide)
    · rw [hschema]
      apply score_filter_after_drop
      · intro s hs hsc
        unfold isScoreCol at hsc
        rcases of_decide_eq_true hsc with h | h | h
        · exact absurd (h ▸ hs) hdu
        · rw [h]; decide
        · exact absurd (h ▸ hs) hru
      · decide
  · obtain ⟨t3, heq, hschema⟩ := rerank_hybrid_relevance_eval hmode hcm hlm
    refine ⟨t3, by rw [heq], ?_, ?_, ?_⟩
    · rw [hschema]
      exact not_mem_filter_contains (by decide)
    · rw [hschema]
      exact not_mem_filter_contains (by decide)
    · rw [hschema]
      apply score_filter_after_drop
      · intro s hs hsc
        unfold isScoreCol at hsc
        rcases of_decide_eq_true hsc with h | h | h
        · rw [h]; decide
        · rw [h]; decide
        · exact absurd (h ▸ hs) hrm
      · decide

/-- C3 witness at concrete inputs. -/
theorem relevance_mode_exactly_one_score_column_witness :
    (∃ t1 : Table,
       (rerank_vector exampleReranker exampleProvider "q" exampleVectorTable).1
         = Except.ok t1 ∧
       "_distance" ∉ t1.schema ∧
       t1.schema.filter isScoreCol = ["_relevance_score"]) ∧
    (∃ t2 : Table,
       (rerank_fts exampleReranker exampleProvider "q" exampleFtsTable).1
         = Except.ok t2 ∧
       "_score" ∉ t2.schema ∧
       t2.schema.filter isScoreCol = ["_relevance_score"]) ∧
    (∃ t3 : Table,
       (rerank_hybrid exampleReranker exampleProvider "q" exampleVectorTable
           exampleFtsTable).1 = Except.ok t3 ∧
       "_distance" ∉ t3.schema ∧ "_score" ∉ t3.schema ∧
       t3.schema.filter isScoreCol = ["_relevance_score"]) :=
  relevance_mode_exactly_one_score_column exampleReranker exampleProvider "q"
    exampleVectorTable exampleFtsTable exampleVectorTable exampleFtsTable
    [Value.str "a", Value.str "b", Value.str "c"] [Value.str "d"]
    [Value.str "a", Value.str "b", Value.str "c", Value.str "d"]
    (by rfl) (by rfl) (by rfl) (by decide) (by decide) (by decide)
    (by rfl) (by rfl) (by decide) (by decide) (by decide)
    (by rfl) (by rfl) (by decide)

/-- C9: on the vector-only and full-text-only paths any `return_score` other
than exactly `"relevance"` (including `"all"` and unrecognized strings)
silently skips the column drop — original score columns are retained
alongside `_relevance_score` and no error is raised; on the hybrid path any
unrecognized mode likewise passes through with every column kept, and only
the exact value `"all"` is rejected there. -/
theorem non_relevance_modes_pass_through
    (R : CrossEncoderReranker) (predict : Provider) (q : String)
    (t u hv hf : Table) (pt pu pm : List Value)
    (hmode : R.score ≠ "relevance")
    (hct : t.getColumn R.column = some pt)
    (hlt : (predict (pt.map (fun p => (q, p)))).length = t.rows.length)
    (hcu : u.getColumn R.column = some pu)
    (hlu : (predict (pu.map (fun p => (q, p)))).length = u.rows.length)
    (hcm : (merge_results hv hf).getColumn R.column = some pm)
    (hlm : (predict (pm.map (fun p => (q, p)))).length = (merge_results hv hf).rows.length) :
    (∃ t1 : Table,
       rerank_vector R predict q t = (Except.ok t1, [pt.map (fun p => (q, p))]) ∧
       t1.schema = t.schema ++ ["_relevance_score"]) ∧
    (∃ t2 : Table,
       rerank_fts R predict q u = (Except.ok t2, [pu.map (fun p => (q, p))]) ∧
       t2.schema = u.schema ++ ["_relevance_score"]) ∧
    (R.score ≠ "all" →
       ∃ t3 : Table,
         rerank_hybrid R predict q hv hf
           = (Except.ok t3, [pm.map (fun p => (q, p))]) ∧
         t3.schema = (merge_results hv hf).schema ++ ["_relevance_score"]) ∧
    (R.score = "all" →
       rerank_hybrid R predict q hv hf
         = (Except.error RerankError.notImplemented, [pm.map (fun p => (q, p))])) := by
  refine ⟨?_, ?_, ?_, ?_⟩
  · obtain ⟨t1, heq, hschema, _⟩ := rerank_vector_other_eval hmode hct hlt
    exact ⟨t1, heq, hschema⟩
  · obtain ⟨t2, heq, hschema, _⟩ := rerank_fts_other_eval hmode hcu hlu
    exact ⟨t2, heq, hschema⟩
  · intro hall
    exact rerank_hybrid_other_eval hmode hall hcm hlm
  · intro hall
    unfold rerank_hybrid
    dsimp only
    rw [_rerank_ok_eq hcm hlm]
    dsimp only [Except.bind]
    rw [if_neg hmode, if_pos hall]

/-- C9 witness at concrete inputs with the unrecognized mode `"weird"`. -/
theorem non_relevance_modes_pass_through_witness :
    (∃ t1 : Table,
       rerank_vector ⟨"m", "text", "cpu", "weird"⟩ exampleProvider "q" exampleVectorTable
         = (Except.ok t1,
            [[Value.str "a", Value.str "b", Value.str "c"].map (fun p => ("q", p))]) ∧
       t1.schema = exampleVectorTable.schema ++ ["_relevance_score"]) ∧
    (∃ t2 : Table,
       rerank_fts ⟨"m", "text", "cpu", "weird"⟩ exampleProvider "q" exampleFtsTable
         = (Except.ok t2, [[Value.str "d"].map (fun p => ("q", p))]) ∧
       t2.schema = exampleFtsTable.schema ++ ["_relevance_score"]) ∧
    ((⟨"m", "text", "cpu", "weird"⟩ : CrossEncoderReranker).score ≠ "all" →
       ∃ t3 : Table,
         rerank_hybrid ⟨"m", "text", "cpu", "weird"⟩ exampleProvider "q"
             exampleVectorTable exampleFtsTable
           = (Except.ok t3,
              [[Value.str "a", Value.str "b", Value.str "c", Value.str "d"].map
                 (fun p => ("q", p))]) ∧
         t3.schema = (merge_results exampleVectorTable exampleFtsTable).schema
             ++ ["_relevance_score"]) ∧
    ((⟨"m", "text", "cpu", "weird"⟩ : CrossEncoderReranker).score = "all" →
       rerank_hybrid ⟨"m", "text", "cpu", "weird"⟩ exampleProvider "q"
           exampleVectorTable exampleFtsTable
         = (Except.error RerankError.notImplemented,
            [[Value.str "a", Value.str "b", Value.str "c", Value.str "d"].map
               (fun p => ("q", p))])) :=
  non_relevance_modes_pass_through ⟨"m", "text", "cpu", "weird"⟩ exampleProvider "q"
    exampleVectorTable exampleFtsTable exampleVectorTable exampleFtsTable
    [Value.str "a", Value.str "b", Value.str "c"] [Value.str "d"]
    [Value.str "a", Value.str "b", Value.str "c", Value.str "d"]
    (by decide) (by rfl) (by rfl) (by rfl) (by rfl) (by rfl) (by rfl)

/-- C10 counterexample: for the empty candidate set whose schema holds only
the text column, `rerank_vector` in the default `relevance` mode does invoke
the provider once with the empty pair list, but then raises the KeyError of
dropping the absent `_distance` column — the claim's "no error is raised" is
false for this input. -/
theorem empty_set_missing_distance_errors_cex :
    rerank_vector exampleReranker emptyProvider "q" emptyTextOnly
      = (Except.error (RerankError.keyError "_distance"), [[]]) := rfl

/-- C10 (amended): for an empty candidate set containing the configured text
column and the path's original score column (`_distance` for the vector path,
`_score` for the full-text path), `rerank_vector` and `rerank_fts` invoke the
provider exactly once with the empty pair list and return an empty result set
whose schema includes `_relevance_score`; no error is raised. -/
theorem empty_candidate_set_scored_once
    (R : CrossEncoderReranker) (predict : Provider) (q : String) (t u : Table)
    (hrt : t.rows = []) (hru : u.rows = [])
    (hmt : R.column ∈ t.schema) (hmu : R.column ∈ u.schema)
    (hdt : "_distance" ∈ t.schema) (hsu : "_score" ∈ u.schema)
    (hp : (predict []).length = 0) :
    (∃ t1 : Table, rerank_vector R predict q t = (Except.ok t1, [[]]) ∧
       t1.rows = [] ∧ "_relevance_score" ∈ t1.schema) ∧
    (∃ t2 : Table, rerank_fts R predict q u = (Except.ok t2, [[]]) ∧
       t2.rows = [] ∧ "_relevance_score" ∈ t2.schema) := by
  have hct : t.getColumn R.column = some ([] : List Value) := by
    obtain ⟨i, hi⟩ := colIdx_isSome_of_mem hmt
    unfold Table.getColumn
    rw [hi, hrt]
    rfl
  have hcu : u.getColumn R.column = some ([] : List Value) := by
    obtain ⟨i, hi⟩ := colIdx_isSome_of_mem hmu
    unfold Table.getColumn
    rw [hi, hru]
    rfl
  have hlt : (predict (([] : List Value).map (fun p => (q, p)))).length = t.rows.length := by
    rw [hrt]
    exact hp
  have hlu : (predict (([] : List Value).map (fun p => (q, p)))).length = u.rows.length := by
    rw [hru]
    exact hp
  constructor
  · by_cases hmode : R.score = "relevance"
    · obtain ⟨t1, heq, hschema, hnil⟩ := rerank_vector_relevance_eval hmode hct hlt hdt
      refine ⟨t1, by rw [heq]; rfl, hnil hrt, ?_⟩
      rw [hschema]
      exact List.mem_filter.mpr
        ⟨List.mem_append.mpr (Or.inr (List.mem_singleton.mpr rfl)), by decide⟩
    · obtain ⟨t1, heq, hschema, hnil⟩ := rerank_vector_other_eval hmode hct hlt
      refine ⟨t1, by rw [heq]; rfl, hnil hrt, ?_⟩
      rw [hschema]
      exact List.mem_append.mpr (Or.inr (List.mem_singleton.mpr rfl))
  · by_cases hmode : R.score = "relevance"
    · obtain ⟨t2, heq, hschema, hnil⟩ := rerank_fts_relevance_eval hmode hcu hlu hsu
      refine ⟨t2, by rw [heq]; rfl, hnil hru, ?_⟩
      rw [hschema]
      exact List.mem_filter.mpr
        ⟨List.mem_append.mpr (Or.inr (List.mem_singleton.mpr rfl)), by decide⟩
    · obtain ⟨t2, heq, hschema, hnil⟩ := rerank_fts_other_eval hmode hcu hlu
      refine ⟨t2, by rw [heq]; rfl, hnil hru, ?_⟩
      rw [hschema]
      exact List.mem_append.mpr (Or.inr (List.mem_singleton.mpr rfl))

/-- C10 witness at concrete empty inputs. -/
theorem empty_candidate_set_scored_once_witness :
    (∃ t1 : Table,
       rerank_vector exampleReranker emptyProvider "q" emptyVectorTable
         = (Except.ok t1, [[]]) ∧
       t1.rows = [] ∧ "_relevance_score" ∈ t1.schema) ∧
    (∃ t2 : Table,
       rerank_fts exampleReranker emptyProvider "q" emptyFtsTable
         = (Except.ok t2, [[]]) ∧
       t2.rows = [] ∧ "_relevance_score" ∈ t2.schema) :=
  empty_candidate_set_scored_once exampleReranker emptyProvider "q"
    emptyVectorTable emptyFtsTable (by rfl) (by rfl) (by decide) (by decide)
    (by decide) (by decide) (by rfl)
